import Mathlib

/-!
Shallow embedding of the FreeScout LLM integration (FSWinf-Beratung-LLM).

Python modules embedded here:
* `freescout_llm/draft_tracker.py` (`DraftTracker.should_create_draft`)
* `freescout_llm/conversation_processor.py` (`ConversationProcessor`)
* `freescout_llm/database/document_processors.py` (`KnowledgeBaseProcessor.process_metadata`)
* `freescout_llm/database/vector_db_manager.py` (dedup filtering / batched insertion)
* `freescout_llm/tools/url_summarization.py` (domain whitelist check)
* `freescout_llm/tools/knowledge_search.py`, `freescout_llm/tools/email_search.py`

Machine-level conventions: Python `None`-or-string values become `Option String`;
Python dicts with string-or-`None` values become association lists with unique keys;
Python string comparison (`>` on `str`) is code-point lexicographic, which matches
Lean's `String.lt`; effects (DB reads, HTTP, prints) are passed in explicitly and
emitted as trace fields.
-/

set_option maxRecDepth 8192

namespace FreescoutLLM

/-! Python string primitives, modelled on code-point (`Char`) lists.  Python
`str` indexing, slicing and comparison are by code point, which matches
`String.data`. -/

/-- Python `s.startswith(pre)`. -/
def pyStartsWith (s pre : String) : Bool :=
  pre.data.isPrefixOf s.data

/-- Splitting a `Char` list at every occurrence of `c` (Python
`s.split(c)` for a one-character separator: no collapsing, keeps empties). -/
def splitOnChar (c : Char) : List Char → List (List Char)
  | [] => [[]]
  | a :: t =>
    let r := splitOnChar c t
    if a = c then [] :: r else (a :: r.headD []) :: r.tail

/-- Python `s.split("\n")`. -/
def pySplitNl (s : String) : List String :=
  (splitOnChar (Char.ofNat 10) s.data).map List.asString

/-- Python `"\n".join(lines)`. -/
def pyJoinNl : List String → String
  | [] => ""
  | a :: t => t.foldl (fun acc x => acc ++ "\n" ++ x) a

/-- Python `s.strip()` (whitespace strip; ASCII whitespace, which is all the
repository's data uses). -/
def pyStrip (s : String) : String :=
  (((s.data.dropWhile Char.isWhitespace).reverse.dropWhile
    Char.isWhitespace).reverse).asString

/-- A FreeScout conversation thread, as consumed by the Python code:
`{type, body, createdAt, createdBy: {id}}`.  `createdAt = none` models a missing
key (`thread.get("createdAt")` returning `None`); `createdById = none` models a
missing `createdBy` dict or missing `id` key. -/
structure CThread where
  type : String
  body : String
  createdAt : Option String
  createdById : Option Int
deriving Repr, DecidableEq

/-- One Python thread dict is skipped by `DraftTracker.should_create_draft` when
`thread["type"] == "note" and thread.get("createdBy", {}).get("id") == LLM_USER_ID`. -/
def isLLMNote (llmId : Int) (t : CThread) : Bool :=
  t.type = "note" && t.createdById = some llmId

/-- Embeds `DraftTracker.should_create_draft` (draft_tracker.py lines 84-117).
`lastDraftTime` is the result of `get_last_draft_time` for this conversation
(`none` = no row).  Python's `if not last_draft_time` is truthiness: it also
fires on an empty stored string, hence the `t = ""` branch.  The loop body
`if thread_created_at and thread_created_at > last_draft_time: return True`
becomes `List.any`. -/
def should_create_draft (llmId : Int) (lastDraftTime : Option String)
    (threads : List CThread) : Bool :=
  match lastDraftTime with
  | none => true
  | some t =>
    if t = "" then true
    else
      threads.any fun th =>
        if isLLMNote llmId th then false
        else
          match th.createdAt with
          | none => false
          | some c => c ≠ "" && decide (t < c)

end FreescoutLLM

open FreescoutLLM

/-- C1, part of the statement: a non-AI-note thread counts as "new" exactly when
its `createdAt` is a string strictly greater than the stored time `t`. -/
lemma should_create_draft_some (llmId : Int) (t : String) (ht : t ≠ "")
    (threads : List CThread) :
    should_create_draft llmId (some t) threads =
      threads.any fun th =>
        !isLLMNote llmId th &&
          (match th.createdAt with
           | none => false
           | some c => c ≠ "" && decide (t < c)) := by
  simp only [should_create_draft, ht, if_false]
  congr 1
  funext th
  by_cases h : isLLMNote llmId th <;> simp [h]

/-- Helper: no string is lexicographically below the empty string, so a
`createdAt` strictly above any stored time is itself nonempty. -/
lemma ne_empty_of_lt {t c : String} (h : t < c) : c ≠ "" := by
  rintro rfl
  have h2 : t.toList < ([] : List Char) := by
    simpa using String.lt_iff_toList_lt.mp h
  exact List.Lex.not_nil_right _ _ h2

/-- C1: `should_create_draft` returns true when no prior draft timestamp is
stored; and when a prior (nonempty) timestamp `t` is stored it returns true iff
some thread that is not an AI-authored note has a `createdAt` string strictly
greater than `t` (code-point lexicographic order). -/
theorem C1_should_create_draft_spec (llmId : Int) (t : String) (ht : t ≠ "")
    (threads : List CThread) :
    should_create_draft llmId none threads = true ∧
    (should_create_draft llmId (some t) threads = true ↔
      ∃ th ∈ threads, ¬ isLLMNote llmId th = true ∧
        ∃ c, th.createdAt = some c ∧ t < c) := by
  refine ⟨rfl, ?_⟩
  rw [should_create_draft_some llmId t ht threads]
  simp only [List.any_eq_true, Bool.and_eq_true, Bool.not_eq_true',
    decide_eq_true_eq]
  constructor
  · rintro ⟨th, hmem, hnote, hcr⟩
    refine ⟨th, hmem, by simp [hnote], ?_⟩
    cases hc : th.createdAt with
    | none => rw [hc] at hcr; simp at hcr
    | some c =>
      rw [hc] at hcr
      simp only [Bool.and_eq_true, decide_eq_true_eq, ne_eq] at hcr
      exact ⟨c, rfl, hcr.2⟩
  · rintro ⟨th, hmem, hnote, c, hc, hlt⟩
    refine ⟨th, hmem, by simpa using hnote, ?_⟩
    rw [hc]
    simp only [Bool.and_eq_true, decide_eq_true_eq, ne_eq]
    exact ⟨ne_empty_of_lt hlt, hlt⟩

/-- Witness for C1 at a concrete conversation state: prior draft at
`2024-01-01T00:00:00Z`, one later customer thread. -/
theorem C1_witness :
    should_create_draft 7 none [] = true ∧
    (should_create_draft 7 (some "2024-01-01T00:00:00Z")
        [⟨"customer", "b", some "2024-02-01T00:00:00Z", some 3⟩] = true ↔
      ∃ th ∈ [(⟨"customer", "b", some "2024-02-01T00:00:00Z", some 3⟩ : CThread)],
        ¬ isLLMNote 7 th = true ∧
          ∃ c, th.createdAt = some c ∧ "2024-01-01T00:00:00Z" < c) :=
  C1_should_create_draft_spec 7 "2024-01-01T00:00:00Z" (by decide)
    [⟨"customer", "b", some "2024-02-01T00:00:00Z", some 3⟩]

/-- Helper: elements the predicate rejects anyway can be filtered out of `any`. -/
lemma any_filter_of_false {α : Type} (p : α → Bool) (f : α → Bool)
    (l : List α) (h : ∀ x ∈ l, ¬ p x = true → f x = false) :
    (l.filter p).any f = l.any f := by
  induction l with
  | nil => rfl
  | cons a l2 ih =>
    have ih2 := ih fun x hx => h x (List.mem_cons_of_mem a hx)
    by_cases hp : p a = true
    · simp [List.filter_cons, hp, ih2]
    · have hf : f a = false := h a (List.mem_cons_self a l2) hp
      simp [List.filter_cons, hp, hf, ih2]

/-- Helper: a thread with a missing or empty `createdAt` makes the
`should_create_draft` loop predicate false. -/
lemma loop_pred_false_of_no_createdAt (llmId : Int) (t : String) (th : CThread)
    (hca : th.createdAt = none ∨ th.createdAt = some "") :
    (if isLLMNote llmId th then false
     else
       match th.createdAt with
       | none => false
       | some c => c ≠ "" && decide (t < c)) = false := by
  by_cases hn : isLLMNote llmId th
  · simp [hn]
  · rcases hca with h | h <;> simp [hn, h]

/-- C10: with a stored prior draft timestamp, threads whose `createdAt` is
missing or empty never flip `should_create_draft` to true: they may be removed
without changing the result, and when every thread lacks a (nonempty)
`createdAt` the answer is false. -/
theorem C10_missing_createdAt_not_new (llmId : Int) (t : String)
    (threads : List CThread) (ht : t ≠ "") :
    should_create_draft llmId (some t)
        (threads.filter fun th =>
          !(th.createdAt = none || th.createdAt = some "")) =
      should_create_draft llmId (some t) threads ∧
    ((∀ th ∈ threads, th.createdAt = none ∨ th.createdAt = some "") →
      should_create_draft llmId (some t) threads = false) := by
  constructor
  · simp only [should_create_draft, ht, if_false]
    apply any_filter_of_false
    intro th _ hth
    have hca : th.createdAt = none ∨ th.createdAt = some "" := by
      by_cases h1 : th.createdAt = none
      · exact Or.inl h1
      · right
        by_cases h2 : th.createdAt = some ""
        · exact h2
        · exact absurd (by simp [h1, h2]) hth
    exact loop_pred_false_of_no_createdAt llmId t th hca
  · intro hall
    simp only [should_create_draft, ht, if_false]
    rw [List.any_eq_false]
    intro th hmem
    rw [loop_pred_false_of_no_createdAt llmId t th (hall th hmem)]
    simp

/-- Witness for C10: prior draft stored, the only threads lack `createdAt`. -/
theorem C10_witness :
    (should_create_draft 7 (some "2024-01-01T00:00:00Z")
        ([⟨"customer", "b", none, some 3⟩,
          ⟨"message", "m", some "", some 4⟩].filter fun th =>
          !(th.createdAt = none || th.createdAt = some "")) =
      should_create_draft 7 (some "2024-01-01T00:00:00Z")
        [⟨"customer", "b", none, some 3⟩,
         ⟨"message", "m", some "", some 4⟩]) ∧
    ((∀ th ∈ [(⟨"customer", "b", none, some 3⟩ : CThread),
              ⟨"message", "m", some "", some 4⟩],
        th.createdAt = none ∨ th.createdAt = some "") →
      should_create_draft 7 (some "2024-01-01T00:00:00Z")
        [⟨"customer", "b", none, some 3⟩,
         ⟨"message", "m", some "", some 4⟩] = false) :=
  C10_missing_createdAt_not_new 7 "2024-01-01T00:00:00Z"
    [⟨"customer", "b", none, some 3⟩, ⟨"message", "m", some "", some 4⟩]
    (by decide)

namespace FreescoutLLM

/-- A FreeScout conversation payload as used by the processor:
`{subject, _embedded: {threads: [...]}}` (threads newest-first from the API).
`subject = none` models a missing key. -/
structure Conversation where
  subject : Option String
  threads : List CThread
deriving Repr, DecidableEq

/-- Embeds `ConversationProcessor._extract_threads` (conversation_processor.py
lines 88-105): keep only types `customer|message|note` (drops `lineitem`),
then reverse (`[::-1]`) to oldest-first. -/
def extract_threads (conversation : Conversation) : List CThread :=
  (conversation.threads.filter fun th =>
    th.type = "customer" || th.type = "message" || th.type = "note").reverse

/-- Embeds `ConversationProcessor._extract_conversation_text` (lines 135-151):
concatenate `html_to_markdown(body)` of `customer`/`message` threads, each
followed by a blank line.  `h2md` stands for the external `html_to_markdown`. -/
def extract_conversation_text (h2md : String → String)
    (threads : List CThread) : String :=
  threads.foldl
    (fun acc th =>
      if th.type = "customer" || th.type = "message" then
        acc ++ h2md th.body ++ "\n\n"
      else acc)
    ""

/-- Embeds `ConversationProcessor._should_skip_processing` (lines 107-133),
returning the skip decision together with the messages it prints.
`lastDraftTime` stands for the DraftTracker row of this conversation. -/
def should_skip_processing (llmId : Int) (lastDraftTime : Option String)
    (threads : List CThread) : Bool × List String :=
  match threads.getLast? with
  | none => (true, [])
  | some lastThread =>
    if lastThread.type = "message" then
      (true, ["The last message is a user reply. Skipping."])
    else if !should_create_draft llmId lastDraftTime threads then
      (true, ["No new activity since last LLM draft. Skipping."])
    else (false, [])

/-- Environment of one `process_conversation` call: every external effect the
Python method consumes, passed in explicitly. -/
structure ProcEnv where
  /-- result of `self.api.get_conversation(conversation_id)` (`none` = falsy) -/
  conversation : Option Conversation
  /-- DraftTracker state: `get_last_draft_time(conversation_id)` -/
  lastDraftTime : Option String
  /-- `self.rag.generate_suggestion(text, subject)`; `""` models a falsy result -/
  generate : String → String → String
  /-- result of `self.api.create_draft(conversation_id, draft_text)` -/
  createDraftOk : Bool
  /-- the external `html_to_markdown` -/
  h2md : String → String
  /-- `datetime.now().isoformat()` at write-back time -/
  now : String

/-- Observable outcome of one `process_conversation` call. -/
structure ProcOut where
  /-- the boolean return value -/
  result : Bool
  /-- messages printed by `process_conversation` and its helpers, in order -/
  logs : List String
  /-- the thread list handed to `_extract_conversation_text`
  (after the force adjustment), when that stage is reached -/
  adjustedThreads : Option (List CThread)
  /-- whether `self.api.create_draft` was invoked -/
  draftAttempted : Bool
  /-- timestamp recorded via `record_draft_created`, if any -/
  recorded : Option String
deriving Repr, DecidableEq

/-- Embeds `ConversationProcessor.process_conversation` (lines 31-86) together
with `_create_suggestion_draft` (lines 153-176), as a pure function from the
call's environment to its observable outcome. -/
def process_conversation (llmId : Int) (env : ProcEnv) (cid : Int)
    (force stream_only : Bool) : ProcOut :=
  match env.conversation with
  | none => ⟨false, [], none, false, none⟩
  | some conversation =>
    let threads := extract_threads conversation
    if threads.isEmpty then
      ⟨false, ["Conversation has no threads. Exiting."], none, false, none⟩
    else
      let skip := should_skip_processing llmId env.lastDraftTime threads
      if !force && skip.1 then
        ⟨true, skip.2, none, false, none⟩
      else
        let threads2 :=
          if force && ((threads.getLast?.map CThread.type) = some "message")
          then threads.dropLast else threads
        let conversation_text := extract_conversation_text env.h2md threads2
        if pyStrip conversation_text = "" then
          ⟨false, ["No customer messages found to process. Exiting."],
            some threads2, false, none⟩
        else
          let subject := conversation.subject.getD "No Subject"
          let suggestion := env.generate conversation_text subject
          if suggestion = "" then
            ⟨false,
              ["Failed to generate suggestion for conversation " ++
                toString cid ++ "."],
              some threads2, false, none⟩
          else if stream_only then
            ⟨true,
              ["[Stream Only Mode] Generated suggestion for conversation " ++
                toString cid ++ ".",
               "Draft creation skipped due to --stream-only flag."],
              some threads2, false, none⟩
          else if env.createDraftOk then
            ⟨true,
              ["Process for conversation " ++ toString cid ++
                " completed successfully."],
              some threads2, true, some env.now⟩
          else
            ⟨false,
              ["Failed to create draft for conversation " ++ toString cid ++ "."],
              some threads2, true, none⟩

end FreescoutLLM

/-- C2: when the newest filtered thread is a human reply (`message` type) and
`force` is off, `process_conversation` returns true while creating no draft and
recording no timestamp (stage-3 skip). -/
theorem C2_skip_on_trailing_user_reply (llmId cid : Int) (env : ProcEnv)
    (c : Conversation) (stream_only : Bool)
    (hconv : env.conversation = some c)
    (hlast : (extract_threads c).getLast?.map CThread.type = some "message") :
    (process_conversation llmId env cid false stream_only).result = true ∧
    (process_conversation llmId env cid false stream_only).draftAttempted
      = false ∧
    (process_conversation llmId env cid false stream_only).recorded = none := by
  obtain ⟨lth, hlth, htype⟩ :
      ∃ lth, (extract_threads c).getLast? = some lth ∧ lth.type = "message" := by
    cases h : (extract_threads c).getLast? with
    | none => rw [h] at hlast; simp at hlast
    | some x =>
      rw [h] at hlast
      simp at hlast
      exact ⟨x, rfl, hlast⟩
  have hne : (extract_threads c).isEmpty = false := by
    cases h2 : extract_threads c with
    | nil => rw [h2] at hlth; simp at hlth
    | cons a l => simp
  unfold process_conversation should_skip_processing
  rw [hconv]
  simp [hne, hlth, htype]

/-- Witness for C2: a conversation whose newest thread is a customer `message`. -/
theorem C2_witness :
    (process_conversation 7
        ⟨some ⟨some "Subj",
          [⟨"message", "hi", some "2024-01-02T00:00:00Z", some 3⟩,
           ⟨"customer", "q", some "2024-01-01T00:00:00Z", some 3⟩]⟩,
         none, fun _ _ => "sugg", true, id, "2024-03-01T00:00:00Z"⟩
        42 false false).result = true ∧
    (process_conversation 7
        ⟨some ⟨some "Subj",
          [⟨"message", "hi", some "2024-01-02T00:00:00Z", some 3⟩,
           ⟨"customer", "q", some "2024-01-01T00:00:00Z", some 3⟩]⟩,
         none, fun _ _ => "sugg", true, id, "2024-03-01T00:00:00Z"⟩
        42 false false).draftAttempted = false ∧
    (process_conversation 7
        ⟨some ⟨some "Subj",
          [⟨"message", "hi", some "2024-01-02T00:00:00Z", some 3⟩,
           ⟨"customer", "q", some "2024-01-01T00:00:00Z", some 3⟩]⟩,
         none, fun _ _ => "sugg", true, id, "2024-03-01T00:00:00Z"⟩
        42 false false).recorded = none :=
  C2_skip_on_trailing_user_reply 7 42
    ⟨some ⟨some "Subj",
      [⟨"message", "hi", some "2024-01-02T00:00:00Z", some 3⟩,
       ⟨"customer", "q", some "2024-01-01T00:00:00Z", some 3⟩]⟩,
     none, fun _ _ => "sugg", true, id, "2024-03-01T00:00:00Z"⟩
    ⟨some "Subj",
      [⟨"message", "hi", some "2024-01-02T00:00:00Z", some 3⟩,
       ⟨"customer", "q", some "2024-01-01T00:00:00Z", some 3⟩]⟩
    false rfl (by decide)

/-- C3 counterexample: a fetched conversation whose threads are all `lineitem`
(filtered list empty) yields the boolean result `false` — exactly the result of
an external fetch failure, not a distinct non-failure result.  The claim that
the empty case returns "a non-failure result distinct from the failure result"
is therefore false: the two runs return the same value. -/
theorem C3_counterexample :
    (process_conversation 7
        ⟨some ⟨some "Subj", [⟨"lineitem", "x", none, none⟩]⟩,
         none, fun _ _ => "sugg", true, id, "T"⟩
        42 false false).result = false ∧
    (process_conversation 7
        ⟨none, none, fun _ _ => "sugg", true, id, "T"⟩
        42 false false).result = false ∧
    ¬ ((process_conversation 7
          ⟨some ⟨some "Subj", [⟨"lineitem", "x", none, none⟩]⟩,
           none, fun _ _ => "sugg", true, id, "T"⟩
          42 false false).result ≠
        (process_conversation 7
          ⟨none, none, fun _ _ => "sugg", true, id, "T"⟩
          42 false false).result) :=
  ⟨rfl, rfl, fun h => h rfl⟩

/-- C3 (amended): when the filtered thread list is empty,
`process_conversation` aborts with the boolean `false` — the same value as an
external-call failure — distinguished from it only by the logged message
"Conversation has no threads. Exiting."; no draft is attempted and no
timestamp is recorded. -/
theorem C3_empty_threads_abort (llmId cid : Int) (env : ProcEnv)
    (c : Conversation) (force stream_only : Bool)
    (hconv : env.conversation = some c)
    (hemp : extract_threads c = []) :
    process_conversation llmId env cid force stream_only =
      ⟨false, ["Conversation has no threads. Exiting."], none, false, none⟩ ∧
    process_conversation llmId ⟨none, env.lastDraftTime, env.generate,
        env.createDraftOk, env.h2md, env.now⟩ cid force stream_only =
      ⟨false, [], none, false, none⟩ := by
  constructor
  · unfold process_conversation
    rw [hconv]
    simp [hemp]
  · rfl

/-- Witness for C3's amended theorem: one `lineitem`-only conversation. -/
theorem C3_witness :
    process_conversation 7
        ⟨some ⟨some "Subj", [⟨"lineitem", "x", none, none⟩]⟩,
         none, fun _ _ => "sugg", true, id, "T"⟩
        42 false false =
      ⟨false, ["Conversation has no threads. Exiting."], none, false, none⟩ ∧
    process_conversation 7
        ⟨none, none, fun _ _ => "sugg", true, id, "T"⟩
        42 false false =
      ⟨false, [], none, false, none⟩ :=
  C3_empty_threads_abort 7 42
    ⟨some ⟨some "Subj", [⟨"lineitem", "x", none, none⟩]⟩,
     none, fun _ _ => "sugg", true, id, "T"⟩
    ⟨some "Subj", [⟨"lineitem", "x", none, none⟩]⟩
    false false rfl (by decide)

/-- C6: with `force`, when the newest (last, oldest-first) filtered thread is a
`message`, exactly that thread is dropped before text extraction (the remaining
oldest-first list is passed unchanged); when it is not a `message`, nothing is
dropped. -/
theorem C6_force_drops_trailing_user_reply (llmId cid : Int) (env : ProcEnv)
    (c : Conversation) (stream_only : Bool)
    (hconv : env.conversation = some c)
    (hne : extract_threads c ≠ []) :
    (∀ lth, (extract_threads c).getLast? = some lth → lth.type = "message" →
      (process_conversation llmId env cid true stream_only).adjustedThreads =
        some (extract_threads c).dropLast ∧
      (extract_threads c).dropLast ++ [lth] = extract_threads c) ∧
    ((extract_threads c).getLast?.map CThread.type ≠ some "message" →
      (process_conversation llmId env cid true stream_only).adjustedThreads =
        some (extract_threads c)) := by
  have hnem : (extract_threads c).isEmpty = false := by
    cases h2 : extract_threads c with
    | nil => exact absurd h2 hne
    | cons a l => simp
  constructor
  · intro lth hlth htype
    have hmap : (extract_threads c).getLast?.map CThread.type = some "message" := by
      simp [hlth, htype]
    constructor
    · unfold process_conversation
      rw [hconv]
      simp [hnem, hmap]
      split_ifs <;> rfl
    · have hgl : (extract_threads c).getLast hne = lth :=
        Option.some.inj ((List.getLast?_eq_getLast _ hne).symm.trans hlth)
      calc
        (extract_threads c).dropLast ++ [lth]
            = (extract_threads c).dropLast ++
                [(extract_threads c).getLast hne] := by rw [hgl]
        _ = extract_threads c := List.dropLast_append_getLast hne
  · intro hmap
    unfold process_conversation
    rw [hconv]
    simp [hnem, hmap]
    split_ifs <;> rfl

/-- Witness for C6: forced run on a conversation whose newest thread is a
`message`; exactly that thread is dropped before text extraction. -/
theorem C6_witness :
    (process_conversation 7
        ⟨some ⟨some "Subj",
          [⟨"message", "hi", some "2024-01-02T00:00:00Z", some 3⟩,
           ⟨"customer", "q", some "2024-01-01T00:00:00Z", some 3⟩]⟩,
         none, fun _ _ => "sugg", true, id, "2024-03-01T00:00:00Z"⟩
        42 true false).adjustedThreads =
      some (extract_threads
        ⟨some "Subj",
          [⟨"message", "hi", some "2024-01-02T00:00:00Z", some 3⟩,
           ⟨"customer", "q", some "2024-01-01T00:00:00Z", some 3⟩]⟩).dropLast ∧
    (extract_threads
        ⟨some "Subj",
          [⟨"message", "hi", some "2024-01-02T00:00:00Z", some 3⟩,
           ⟨"customer", "q", some "2024-01-01T00:00:00Z", some 3⟩]⟩).dropLast ++
      [⟨"message", "hi", some "2024-01-02T00:00:00Z", some 3⟩] =
      extract_threads
        ⟨some "Subj",
          [⟨"message", "hi", some "2024-01-02T00:00:00Z", some 3⟩,
           ⟨"customer", "q", some "2024-01-01T00:00:00Z", some 3⟩]⟩ :=
  (C6_force_drops_trailing_user_reply 7 42
    ⟨some ⟨some "Subj",
      [⟨"message", "hi", some "2024-01-02T00:00:00Z", some 3⟩,
       ⟨"customer", "q", some "2024-01-01T00:00:00Z", some 3⟩]⟩,
     none, fun _ _ => "sugg", true, id, "2024-03-01T00:00:00Z"⟩
    ⟨some "Subj",
      [⟨"message", "hi", some "2024-01-02T00:00:00Z", some 3⟩,
       ⟨"customer", "q", some "2024-01-01T00:00:00Z", some 3⟩]⟩
    false rfl (by decide)).1
    ⟨"message", "hi", some "2024-01-02T00:00:00Z", some 3⟩ (by decide) rfl

namespace FreescoutLLM

/-- A Python dict with string keys and string-or-`None` values, as an
association list with unique keys (`some s` = string value, `none` = `None`). -/
abbrev Metadata := List (String × Option String)

/-- Key lookup: `none` = key absent, `some v` = key present with value `v`. -/
def dictGet (m : Metadata) (k : String) : Option (Option String) :=
  (m.find? fun p => p.1 = k).map Prod.snd

/-- Python `metadata.get(k, None)`: collapses an absent key and a stored
`None` to `none`. -/
def pyGet (m : Metadata) (k : String) : Option String :=
  (dictGet m k).getD none

/-- Python `{**metadata, k: v}`: existing key is overwritten in place,
a new key is appended. -/
def dictSet (m : Metadata) (k : String) (v : Option String) : Metadata :=
  if m.any fun p => p.1 = k then
    m.map fun p => if p.1 = k then (k, v) else p
  else m ++ [(k, v)]

/-- A langchain `Document`: `{page_content, metadata}`. -/
structure Doc where
  page_content : String
  metadata : Metadata
deriving Repr, DecidableEq

/-- Index of the first occurrence of `pat` in `l`, if any. -/
def findSubIdx (pat : List Char) : List Char → Option Nat
  | [] => if pat.isPrefixOf ([] : List Char) then some 0 else none
  | a :: t =>
    if pat.isPrefixOf (a :: t) then some 0
    else (findSubIdx pat t).map (· + 1)

/-- Python `s.find(pat)`: first index of `pat` in `s`, `-1` if absent. -/
def pyFind (s pat : String) : Int :=
  match findSubIdx pat.data s.data with
  | some i => (i : Int)
  | none => -1

/-- Python `pat in s` (substring containment). -/
def pyContains (s pat : String) : Bool :=
  (findSubIdx pat.data s.data).isSome

/-- Python `s[a:b]` for `0 ≤ a` (code-point slicing, clamped at the end). -/
def pySlice (s : String) (a b : Int) : String :=
  ⟨(s.data.drop a.toNat).take (b - a).toNat⟩

/-- Embeds `KnowledgeBaseProcessor.process_metadata`
(database/document_processors.py lines 87-109).  `doc.metadata` is always a
dict in our model, so the `isinstance` guards take their dict branch. -/
def process_metadata (doc : Doc) : Doc :=
  let source_url0 := pyGet doc.metadata "source"
  let content0 := doc.page_content
  let res :=
    if pyStartsWith content0 "<!-- Source URL:" then
      let lines := pySplitNl content0
      let first_line := lines.headD ""
      if pyContains first_line "Source URL:" then
        let start := pyFind first_line "Source URL:" +
          ("Source URL:".length : Int)
        let endP := pyFind first_line "-->"
        if endP > start then
          (pyJoinNl (lines.drop 2),
            some (pyStrip (pySlice first_line start endP)))
        else (content0, source_url0)
      else (content0, source_url0)
    else (content0, source_url0)
  { page_content := res.1, metadata := dictSet doc.metadata "source_url" res.2 }

end FreescoutLLM

/-- Helper: a failing `find?` on the left part of an append passes through. -/
lemma find?_append_of_none {α : Type} (p : α → Bool) (l1 l2 : List α)
    (h : l1.find? p = none) : (l1 ++ l2).find? p = l2.find? p := by
  induction l1 with
  | nil => simp
  | cons a t ih =>
    by_cases hp : p a
    · rw [List.find?_cons_of_pos _ hp] at h; simp at h
    · rw [List.find?_cons_of_neg _ hp] at h
      simp only [List.cons_append]
      rw [List.find?_cons_of_neg _ hp]
      exact ih h

/-- Helper: overwriting an existing key makes lookup return the new value. -/
lemma find?_map_set_of_any (m : Metadata) (k : String) (v : Option String)
    (h : (m.any fun p => p.1 = k) = true) :
    ((m.map fun p => if p.1 = k then (k, v) else p).find? fun p => p.1 = k) =
      some (k, v) := by
  induction m with
  | nil => simp at h
  | cons a t ih =>
    simp only [List.map_cons]
    by_cases ha : a.1 = k
    · rw [if_pos ha, List.find?_cons_of_pos]
      simp
    · rw [if_neg ha, List.find?_cons_of_neg]
      · apply ih
        simp only [List.any_cons, ha] at h
        simpa using h
      · simpa using ha

/-- Helper: appending a fresh key makes lookup return the appended value. -/
lemma find?_set_of_not_any (m : Metadata) (k : String) (v : Option String)
    (h : (m.any fun p => p.1 = k) = false) :
    ((m ++ [(k, v)]).find? fun p => p.1 = k) = some (k, v) := by
  induction m with
  | nil => simp [List.find?]
  | cons a t ih =>
    simp only [List.any_cons, Bool.or_eq_false_iff] at h
    simp only [List.cons_append]
    rw [List.find?_cons_of_neg]
    · exact ih (by simpa using h.2)
    · simpa using h.1

/-- Helper: after `dictSet m k v`, looking up `k` yields `some v` (the key is
always present in the result). -/
lemma dictGet_dictSet (m : Metadata) (k : String) (v : Option String) :
    dictGet (dictSet m k v) k = some v := by
  unfold dictGet dictSet
  cases hb : (m.any fun p => p.1 = k) with
  | true =>
    rw [if_pos rfl, find?_map_set_of_any m k v hb]
    rfl
  | false =>
    rw [if_neg Bool.false_ne_true, find?_set_of_not_any m k v hb]
    rfl

/-- C4 counterexample: for a document whose content does not start with the
source-URL marker, the claim says `source_url` is left absent from the
resulting metadata; in fact `process_metadata` always writes the key
`source_url` (here set to the document's `source` value), so it is present. -/
theorem C4_counterexample :
    (process_metadata ⟨"hello", [("source", some "kb/a.md")]⟩).page_content
      = "hello" ∧
    dictGet (process_metadata ⟨"hello", [("source", some "kb/a.md")]⟩).metadata
      "source_url" = some (some "kb/a.md") ∧
    ¬ (dictGet (process_metadata
        ⟨"hello", [("source", some "kb/a.md")]⟩).metadata "source_url"
      = none) := by
  refine ⟨rfl, by decide, by decide⟩

/-- Helper: `splitOnChar` always yields at least one segment. -/
lemma splitOnChar_ne_nil (c : Char) (l : List Char) : splitOnChar c l ≠ [] := by
  cases l with
  | nil => simp [splitOnChar]
  | cons a t =>
    unfold splitOnChar
    split <;> simp

/-- Helper: a separator-free prefix of a list is also a prefix of the first
segment of the split. -/
lemma prefix_splitOnChar_head (c : Char) :
    ∀ (pre l : List Char), c ∉ pre → pre.isPrefixOf l = true →
      pre.isPrefixOf ((splitOnChar c l).headD []) = true := by
  intro pre
  induction pre with
  | nil =>
    intro l _ _
    simp [List.isPrefixOf]
  | cons p ps ih =>
    intro l hc hl
    cases l with
    | nil => simp [List.isPrefixOf] at hl
    | cons a t =>
      have hl2 : p = a ∧ ps.isPrefixOf t = true := by
        simpa [List.isPrefixOf] using hl
      obtain ⟨rfl, ht⟩ := hl2
      have hpc : p ≠ c := fun h => hc (h ▸ List.mem_cons_self p ps)
      unfold splitOnChar
      rw [if_neg hpc]
      simp only [List.headD_cons]
      simp only [List.isPrefixOf, beq_self_eq_true, Bool.true_and]
      exact ih t (fun h => hc (List.mem_cons_of_mem _ h)) ht

/-- Helper: a pattern that is a prefix of some suffix of `l` is found by
`findSubIdx`. -/
lemma findSubIdx_isSome_of_prefix_drop (pat : List Char) :
    ∀ (i : Nat) (l : List Char), pat.isPrefixOf (l.drop i) = true →
      (findSubIdx pat l).isSome = true := by
  intro i
  induction i with
  | zero =>
    intro l h
    rw [List.drop_zero] at h
    cases l with
    | nil => simp [findSubIdx, h]
    | cons a t => simp [findSubIdx, h]
  | succ i ih =>
    intro l h
    cases l with
    | nil =>
      rw [List.drop_nil] at h
      simp [findSubIdx, h]
    | cons a t =>
      have h2 : pat.isPrefixOf (t.drop i) = true := by simpa using h
      have h3 := ih t h2
      unfold findSubIdx
      by_cases hp : pat.isPrefixOf (a :: t) = true
      · simp [hp]
      · simp only [hp, Bool.false_eq_true, if_false]
        cases hf : findSubIdx pat t with
        | none => rw [hf] at h3; simp at h3
        | some j => rfl

/-- Helper: content starting with `<!-- Source URL:` forces the inner
`"Source URL:" in first_line` test of `process_metadata` to succeed: the
marker is newline-free, so it is a prefix of the first split line, and
`Source URL:` occurs in it at offset 5. -/
lemma contains_of_startsWith_marker (content : String)
    (h : pyStartsWith content "<!-- Source URL:" = true) :
    pyContains ((pySplitNl content).headD "") "Source URL:" = true := by
  have hnl : (Char.ofNat 10) ∉ "<!-- Source URL:".data := by decide
  have hpre : "<!-- Source URL:".data.isPrefixOf
      ((splitOnChar (Char.ofNat 10) content.data).headD []) = true :=
    prefix_splitOnChar_head (Char.ofNat 10) "<!-- Source URL:".data
      content.data hnl h
  have hhead : ((pySplitNl content).headD "").data =
      (splitOnChar (Char.ofNat 10) content.data).headD [] := by
    unfold pySplitNl
    cases hs : splitOnChar (Char.ofNat 10) content.data with
    | nil => exact absurd hs (splitOnChar_ne_nil _ _)
    | cons x xs => simp [List.asString]
  unfold pyContains
  apply findSubIdx_isSome_of_prefix_drop "Source URL:".data 5
  rw [hhead]
  obtain ⟨rest, hrest⟩ := List.isPrefixOf_iff_prefix.mp hpre
  have hsplit : ("<!-- Source URL:".data : List Char) =
      "<!-- ".data ++ "Source URL:".data := by decide
  rw [← hrest, hsplit, List.append_assoc]
  have hdrop := List.drop_left ("<!-- ".data) ("Source URL:".data ++ rest)
  have hlen : ("<!-- ".data : List Char).length = 5 := by decide
  rw [hlen] at hdrop
  rw [hdrop]
  exact List.isPrefixOf_iff_prefix.mpr ⟨rest, rfl⟩

/-- C4 (amended): if the content begins with `<!-- Source URL:` and the first
line carries `-->` strictly after the URL-text start, `process_metadata`
stores the trimmed text between `Source URL:` and `-->` as `source_url` and
removes the first *two* lines of the content (marker line plus the line
following it); otherwise — no marker prefix, or no usable `-->` on the first
line — the content is unchanged and the resulting metadata maps `source_url`
to the document's prior `source` value (possibly `None`): the key is always
present, never absent. -/
theorem C4_process_metadata_spec :
    (∀ doc : Doc, pyStartsWith doc.page_content "<!-- Source URL:" = true →
      pyFind ((pySplitNl doc.page_content).headD "") "-->" >
        pyFind ((pySplitNl doc.page_content).headD "") "Source URL:" +
          ("Source URL:".length : Int) →
      (process_metadata doc).page_content =
        pyJoinNl ((pySplitNl doc.page_content).drop 2) ∧
      dictGet (process_metadata doc).metadata "source_url" =
        some (some (pyStrip (pySlice ((pySplitNl doc.page_content).headD "")
          (pyFind ((pySplitNl doc.page_content).headD "") "Source URL:" +
            ("Source URL:".length : Int))
          (pyFind ((pySplitNl doc.page_content).headD "") "-->"))))) ∧
    (∀ doc : Doc, pyStartsWith doc.page_content "<!-- Source URL:" = true →
      ¬ (pyFind ((pySplitNl doc.page_content).headD "") "-->" >
        pyFind ((pySplitNl doc.page_content).headD "") "Source URL:" +
          ("Source URL:".length : Int)) →
      (process_metadata doc).page_content = doc.page_content ∧
      dictGet (process_metadata doc).metadata "source_url" =
        some (pyGet doc.metadata "source")) ∧
    (∀ doc : Doc, pyStartsWith doc.page_content "<!-- Source URL:" = false →
      (process_metadata doc).page_content = doc.page_content ∧
      dictGet (process_metadata doc).metadata "source_url" =
        some (pyGet doc.metadata "source")) := by
  refine ⟨?_, ?_, ?_⟩
  · intro doc hstart hgt
    have hcont := contains_of_startsWith_marker doc.page_content hstart
    unfold process_metadata
    simp only [hstart, hcont, if_true]
    rw [if_pos hgt]
    exact ⟨rfl, dictGet_dictSet doc.metadata "source_url" _⟩
  · intro doc hstart hle
    have hcont := contains_of_startsWith_marker doc.page_content hstart
    unfold process_metadata
    simp only [hstart, hcont, if_true]
    rw [if_neg hle]
    exact ⟨rfl, dictGet_dictSet doc.metadata "source_url" _⟩
  · intro doc hstart
    unfold process_metadata
    simp only [hstart, Bool.false_eq_true, if_false]
    exact ⟨by trivial, dictGet_dictSet doc.metadata "source_url" _⟩

/-- Witness for C4's amended theorem, one document per branch: a well-formed
marker (URL extracted, first two lines removed), a degenerate marker with
`-->` not after the URL start (unchanged), and no marker (unchanged). -/
theorem C4_witness :
    ((process_metadata
        ⟨"<!-- Source URL: https://ex.tuwien.at/p -->\nSECOND\nrest line",
         [("source", some "kb/a.md")]⟩).page_content =
      pyJoinNl ((pySplitNl
        "<!-- Source URL: https://ex.tuwien.at/p -->\nSECOND\nrest line").drop
          2) ∧
    dictGet (process_metadata
        ⟨"<!-- Source URL: https://ex.tuwien.at/p -->\nSECOND\nrest line",
         [("source", some "kb/a.md")]⟩).metadata "source_url" =
      some (some (pyStrip (pySlice ((pySplitNl
          "<!-- Source URL: https://ex.tuwien.at/p -->\nSECOND\nrest line").headD
            "")
        (pyFind ((pySplitNl
          "<!-- Source URL: https://ex.tuwien.at/p -->\nSECOND\nrest line").headD
            "") "Source URL:" + ("Source URL:".length : Int))
        (pyFind ((pySplitNl
          "<!-- Source URL: https://ex.tuwien.at/p -->\nSECOND\nrest line").headD
            "") "-->"))))) ∧
    ((process_metadata ⟨"<!-- Source URL:-->\nx", []⟩).page_content =
      "<!-- Source URL:-->\nx" ∧
    dictGet (process_metadata
        ⟨"<!-- Source URL:-->\nx", []⟩).metadata "source_url" =
      some (pyGet [] "source")) ∧
    ((process_metadata
        ⟨"plain text", [("source", some "kb/b.md")]⟩).page_content =
      "plain text" ∧
    dictGet (process_metadata
        ⟨"plain text", [("source", some "kb/b.md")]⟩).metadata "source_url" =
      some (pyGet [("source", some "kb/b.md")] "source")) :=
  ⟨C4_process_metadata_spec.1
      ⟨"<!-- Source URL: https://ex.tuwien.at/p -->\nSECOND\nrest line",
       [("source", some "kb/a.md")]⟩ (by decide) (by decide),
   C4_process_metadata_spec.2.1 ⟨"<!-- Source URL:-->\nx", []⟩
      (by decide) (by decide),
   C4_process_metadata_spec.2.2 ⟨"plain text", [("source", some "kb/b.md")]⟩
      (by decide)⟩

namespace FreescoutLLM

/-- `doc.metadata.get("source")`, with Python `None` and a missing key both
collapsed to `none` (neither can match a string in the existing-source set). -/
def getSource (d : Doc) : Option String :=
  pyGet d.metadata "source"

/-- Embeds the source-set computation of
`VectorDatabaseManager.get_existing_files` (database/vector_db_manager.py
lines 118-177) over a persisted table of chunks: the distinct `source`
metadata values that are non-null and truthy (both the SQL path's
`if row[0]` and the fallback's `if source:` exclude `None` and `""`).
With `force` the set is empty. -/
def get_existing_files (table : List Doc) (force : Bool) : List String :=
  if force then []
  else ((table.filterMap getSource).filter fun s => s ≠ "").dedup

/-- Embeds `VectorDatabaseManager.filter_new_documents` (lines 195-223):
`if force or not existing_files: return documents`, else keep the documents
whose `source` is not an already-ingested source (a `None`/missing source is
never in a set of strings, so such documents are kept). -/
def filter_new_documents (documents : List Doc) (existing_files : List String)
    (force : Bool) : List Doc :=
  if force || existing_files.isEmpty then documents
  else
    documents.filter fun d =>
      match getSource d with
      | none => true
      | some s => !(existing_files.contains s)

/-- One non-`force` run of `VectorDatabaseManager.generate_database`
(lines 258-309) at the table level: compute the existing sources, filter the
incoming chunks, and append the survivors (batched insertion adds them in
order; the chunk count is the table length). -/
def ingest (table : List Doc) (documents : List Doc) : List Doc :=
  table ++ filter_new_documents documents (get_existing_files table false) false

end FreescoutLLM

/-- Helper: a truthy source of a chunk in the table is an existing file. -/
lemma mem_get_existing_files {table : List Doc} {d : Doc} {s : String}
    (hd : d ∈ table) (hs : getSource d = some s) (hne : s ≠ "") :
    s ∈ get_existing_files table false := by
  unfold get_existing_files
  rw [if_neg Bool.false_ne_true]
  rw [List.mem_dedup, List.mem_filter]
  refine ⟨List.mem_filterMap.mpr ⟨d, hd, hs⟩, by simpa using hne⟩

/-- Helper: the existing-file set only grows when the table grows. -/
lemma get_existing_files_append {table extra : List Doc} {s : String}
    (h : s ∈ get_existing_files table false) :
    s ∈ get_existing_files (table ++ extra) false := by
  unfold get_existing_files at h ⊢
  rw [if_neg Bool.false_ne_true] at h ⊢
  rw [List.mem_dedup, List.mem_filter] at h ⊢
  rcases h with ⟨hmem, hne⟩
  refine ⟨?_, hne⟩
  rcases List.mem_filterMap.mp hmem with ⟨d, hd, hs⟩
  exact List.mem_filterMap.mpr ⟨d, List.mem_append_left _ hd, hs⟩

/-- Helper: a document whose source is an existing file is not kept by
`filter_new_documents` (without `force`). -/
lemma not_mem_filter_new_documents {docs : List Doc} {existing : List String}
    {d : Doc} {s : String} (hs : getSource d = some s) (hmem : s ∈ existing) :
    d ∉ filter_new_documents docs existing false := by
  intro hin
  unfold filter_new_documents at hin
  have hne : existing.isEmpty = false := by
    cases existing with
    | nil => simp at hmem
    | cons a t => simp
  rw [hne] at hin
  simp only [Bool.false_or, Bool.false_eq_true, if_false] at hin
  rcases List.mem_filter.mp hin with ⟨_, hpred⟩
  rw [hs] at hpred
  simp only [Bool.not_eq_true'] at hpred
  simp at hpred
  exact hpred hmem

/-- Helper: after one ingestion, every incoming chunk with a truthy source has
its source among the existing files of the grown table. -/
lemma source_mem_after_ingest (table docs : List Doc)
    (hsrc : ∀ d ∈ docs, ∃ s, getSource d = some s ∧ s ≠ "") :
    ∀ d ∈ docs, ∃ s, getSource d = some s ∧
      s ∈ get_existing_files (ingest table docs) false := by
  intro d hd
  obtain ⟨s, hs, hne⟩ := hsrc d hd
  refine ⟨s, hs, ?_⟩
  by_cases hE0 : (get_existing_files table false).isEmpty = true
  · have hdF : d ∈ filter_new_documents docs (get_existing_files table false)
        false := by
      unfold filter_new_documents
      rw [if_pos (by simp [hE0])]
      exact hd
    exact mem_get_existing_files (List.mem_append_right _ hdF) hs hne
  · by_cases hsE : s ∈ get_existing_files table false
    · exact get_existing_files_append hsE
    · have hdF : d ∈ filter_new_documents docs (get_existing_files table false)
          false := by
        unfold filter_new_documents
        rw [if_neg (by simp [hE0])]
        refine List.mem_filter.mpr ⟨hd, ?_⟩
        rw [hs]
        simp [hsE]
      exact mem_get_existing_files (List.mem_append_right _ hdF) hs hne

/-- C5: re-ingesting the same chunks without `force` is idempotent.  Any chunk
whose (truthy) source is already among the table's existing files is filtered
out before insertion, and a second `generate_database` run over the same batch
leaves the persisted table — hence the persisted chunk count — unchanged. -/
theorem C5_dedup_idempotent (table docs : List Doc)
    (hsrc : ∀ d ∈ docs, ∃ s, getSource d = some s ∧ s ≠ "") :
    (∀ d ∈ docs, ∀ s, getSource d = some s →
      s ∈ get_existing_files table false →
      d ∉ filter_new_documents docs (get_existing_files table false) false) ∧
    ingest (ingest table docs) docs = ingest table docs ∧
    (ingest (ingest table docs) docs).length = (ingest table docs).length := by
  have hall := source_mem_after_ingest table docs hsrc
  have hempty : filter_new_documents docs
      (get_existing_files (ingest table docs) false) false = [] := by
    by_cases hE1 : (get_existing_files (ingest table docs) false).isEmpty = true
    · cases hdocs : docs with
      | nil =>
        unfold filter_new_documents
        split <;> simp
      | cons d0 rest =>
        obtain ⟨s0, _, hm0⟩ := hall d0 (by rw [hdocs]; exact List.mem_cons_self d0 rest)
        rw [List.isEmpty_iff.mp hE1] at hm0
        simp at hm0
    · unfold filter_new_documents
      rw [if_neg (by simp [hE1])]
      refine List.filter_eq_nil_iff.mpr ?_
      intro d hd
      obtain ⟨s, hs, hm⟩ := hall d hd
      rw [hs]
      simp [hm]
  have hstep : ingest (ingest table docs) docs =
      ingest table docs ++ filter_new_documents docs
        (get_existing_files (ingest table docs) false) false := rfl
  have heq : ingest (ingest table docs) docs = ingest table docs := by
    rw [hstep, hempty, List.append_nil]
  refine ⟨?_, heq, by rw [heq]⟩
  intro d _ s hs hmem
  exact not_mem_filter_new_documents hs hmem

/-- Witness for C5: a two-chunk batch from one source, ingested twice into an
initially empty table. -/
theorem C5_witness :
    (∀ d ∈ [(⟨"c1", [("source", some "kb/a.md")]⟩ : Doc),
            ⟨"c2", [("source", some "kb/a.md")]⟩], ∀ s,
      getSource d = some s →
      s ∈ get_existing_files [] false →
      d ∉ filter_new_documents
        [⟨"c1", [("source", some "kb/a.md")]⟩,
         ⟨"c2", [("source", some "kb/a.md")]⟩]
        (get_existing_files [] false) false) ∧
    ingest (ingest []
        [⟨"c1", [("source", some "kb/a.md")]⟩,
         ⟨"c2", [("source", some "kb/a.md")]⟩])
      [⟨"c1", [("source", some "kb/a.md")]⟩,
       ⟨"c2", [("source", some "kb/a.md")]⟩] =
      ingest []
        [⟨"c1", [("source", some "kb/a.md")]⟩,
         ⟨"c2", [("source", some "kb/a.md")]⟩] ∧
    (ingest (ingest []
        [⟨"c1", [("source", some "kb/a.md")]⟩,
         ⟨"c2", [("source", some "kb/a.md")]⟩])
      [⟨"c1", [("source", some "kb/a.md")]⟩,
       ⟨"c2", [("source", some "kb/a.md")]⟩]).length =
      (ingest []
        [⟨"c1", [("source", some "kb/a.md")]⟩,
         ⟨"c2", [("source", some "kb/a.md")]⟩]).length :=
  C5_dedup_idempotent []
    [⟨"c1", [("source", some "kb/a.md")]⟩,
     ⟨"c2", [("source", some "kb/a.md")]⟩]
    (by
      intro d hd
      simp only [List.mem_cons, List.not_mem_nil, or_false] at hd
      rcases hd with rfl | rfl <;> exact ⟨"kb/a.md", rfl, by decide⟩)

namespace FreescoutLLM

/-- Embeds `VectorDatabaseManager.add_documents_in_batches`
(database/vector_db_manager.py lines 225-256) as the list of successive
batches handed to `vector_store.add_documents`: the loop
`for i in range(0, len(documents), batch_size): batch = documents[i:i+batch_size]`
produces exactly the takes of `batch_size` in order.  An empty input returns
before any call; `batch_size = 0` is unreachable in Python (`range` would
raise) and is mapped to no calls. -/
def add_documents_in_batches (documents : List Doc) (batch_size : Nat) :
    List (List Doc) :=
  if h : batch_size = 0 ∨ documents.isEmpty = true then []
  else
    documents.take batch_size ::
      add_documents_in_batches (documents.drop batch_size) batch_size
termination_by documents.length
decreasing_by
  push_neg at h
  obtain ⟨h1, h2⟩ := h
  have h3 : documents ≠ [] := by simpa [List.isEmpty_iff] using h2
  cases documents with
  | nil => simp at h3
  | cons a t =>
    simp only [List.length_drop, List.length_cons]
    omega

end FreescoutLLM

/-- Helper: no batches for an empty input. -/
lemma add_documents_in_batches_nil :
    add_documents_in_batches [] 5 = [] := by
  rw [add_documents_in_batches]
  simp

/-- Helper: the batch sizes at batch size 5 are `5, ..., 5, n % 5` (the last
entry only when `5 ∤ n`). -/
lemma batches_map_length (docs : List Doc) :
    (add_documents_in_batches docs 5).map List.length =
      List.replicate (docs.length / 5) 5 ++
        (if docs.length % 5 = 0 then [] else [docs.length % 5]) := by
  generalize hn : docs.length = n
  induction n using Nat.strong_induction_on generalizing docs with
  | _ n ih =>
    cases docs with
    | nil =>
      simp at hn
      subst hn
      rw [add_documents_in_batches]
      simp
    | cons d rest =>
      rw [add_documents_in_batches]
      rw [dif_neg (by simp)]
      simp only [List.map_cons]
      have hdrop : ((d :: rest).drop 5).length = (d :: rest).length - 5 :=
        List.length_drop 5 (d :: rest)
      by_cases hle : (d :: rest).length ≤ 5
      · have hdropnil : (d :: rest).drop 5 = [] := List.drop_eq_nil_of_le hle
        rw [hdropnil, add_documents_in_batches_nil]
        have htake : ((d :: rest).take 5).length = (d :: rest).length := by
          rw [List.length_take]
          omega
        rw [List.map_nil, htake, hn]
        have hpos : 0 < n := by
          rw [← hn]
          simp
        rw [hn] at hle
        by_cases h5 : n = 5
        · subst h5
          norm_num
        · have hd0 : n / 5 = 0 := by omega
          have hm : n % 5 = n := by omega
          rw [hd0, hm, if_neg (by omega)]
          simp
      · push_neg at hle
        have hlt : ((d :: rest).drop 5).length < n := by omega
        have ihd := ih _ hlt ((d :: rest).drop 5) rfl
        rw [ihd]
        have htake : ((d :: rest).take 5).length = 5 := by
          rw [List.length_take]
          omega
        rw [htake, hdrop, hn]
        obtain ⟨m, rfl⟩ : ∃ m, n = m + 5 := ⟨n - 5, by omega⟩
        have h1 : (m + 5) - 5 = m := by omega
        have h2 : (m + 5) / 5 = m / 5 + 1 := by omega
        have h3 : (m + 5) % 5 = m % 5 := by omega
        rw [h1, h2, h3, List.replicate_succ]
        simp

/-- Helper: the concatenation of the batches is the input, in order. -/
lemma batches_join (docs : List Doc) :
    (add_documents_in_batches docs 5).join = docs := by
  generalize hn : docs.length = n
  induction n using Nat.strong_induction_on generalizing docs with
  | _ n ih =>
    cases docs with
    | nil =>
      rw [add_documents_in_batches]
      simp
    | cons d rest =>
      rw [add_documents_in_batches]
      rw [dif_neg (by simp)]
      by_cases hle : (d :: rest).length ≤ 5
      · rw [List.drop_eq_nil_of_le hle, add_documents_in_batches_nil]
        simp [List.take_of_length_le hle]
      · push_neg at hle
        have hlt : ((d :: rest).drop 5).length < n := by
          rw [List.length_drop]
          omega
        have hj : (List.take 5 (d :: rest) ::
            add_documents_in_batches (List.drop 5 (d :: rest)) 5).join =
            List.take 5 (d :: rest) ++
              (add_documents_in_batches (List.drop 5 (d :: rest)) 5).join := rfl
        rw [hj, ih _ hlt ((d :: rest).drop 5) rfl]
        exact List.take_append_drop 5 (d :: rest)

/-- C9: at batch size 5, a non-empty list of `n` documents is inserted in
exactly `⌈n/5⌉ = (n+4)/5` calls; the batch sizes are `5,...,5` followed by
`n % 5` when `5 ∤ n`; and the concatenation of the batches is the input list
in order. -/
theorem C9_add_documents_in_batches_spec (docs : List Doc) (hne : docs ≠ []) :
    (add_documents_in_batches docs 5).length = (docs.length + 4) / 5 ∧
    (add_documents_in_batches docs 5).map List.length =
      List.replicate (docs.length / 5) 5 ++
        (if docs.length % 5 = 0 then [] else [docs.length % 5]) ∧
    (add_documents_in_batches docs 5).join = docs := by
  refine ⟨?_, batches_map_length docs, batches_join docs⟩
  have hc := congrArg List.length (batches_map_length docs)
  rw [List.length_map, List.length_append, List.length_replicate] at hc
  by_cases h5 : docs.length % 5 = 0 <;> simp [h5] at hc <;> omega

/-- Witness for C9 at 17 concrete chunks: exactly 4 insertion calls of sizes
(5,5,5,2). -/
theorem C9_witness :
    (add_documents_in_batches
      ((List.range 17).map fun i => (⟨toString i, []⟩ : Doc)) 5).length = 4 ∧
    (add_documents_in_batches
      ((List.range 17).map fun i => (⟨toString i, []⟩ : Doc)) 5).map
        List.length = [5, 5, 5, 2] := by
  have h := C9_add_documents_in_batches_spec
    ((List.range 17).map fun i => (⟨toString i, []⟩ : Doc)) (by decide)
  have hlen : ((List.range 17).map fun i => (⟨toString i, []⟩ : Doc)).length
      = 17 := by simp
  constructor
  · rw [h.1, hlen]
  · rw [h.2.1, hlen]
    rfl

namespace FreescoutLLM

/-- `ALLOWED_DOMAINS` (tools/url_summarization.py lines 17-25), in source
order. -/
def ALLOWED_DOMAINS : List String :=
  ["tuwien.at", "winf.at", "htu.at", "fsinf.at", "vowi.fsinf.at",
   "informatics.tuwien.ac.at", "tiss.tuwien.ac.at"]

/-- `urllib.parse` scheme characters: ASCII letters, digits, `+`, `-`, `.`. -/
def isSchemeChar (c : Char) : Bool :=
  c.isAlpha || c.isDigit || c = '+' || c = '-' || c = '.'

/-- CPython `urlsplit` preprocessing: `lstrip` of C0-control-or-space
characters, then removal of every tab, CR and LF. -/
def urlPreprocess (url : String) : List Char :=
  (url.data.dropWhile fun c => c.val ≤ 32).filter fun c =>
    !(c = Char.ofNat 9 || c = Char.ofNat 13 || c = Char.ofNat 10)

/-- CPython `urlsplit` scheme handling: at `i = url.find(":")` with `i > 0`,
an ASCII-letter first character, and only scheme characters before the colon,
the scheme and colon are dropped. -/
def dropScheme (l : List Char) : List Char :=
  match l.findIdx? (· = ':') with
  | some i =>
    if 0 < i ∧ (l.headD ' ').isAlpha = true ∧
        ((l.take i).drop 1).all isSchemeChar = true
    then l.drop (i + 1) else l
  | none => l

/-- CPython `urlsplit` netloc: after a leading `//`, the characters up to the
first `/`, `?` or `#`; mismatched square brackets raise (`none` here; the
exception makes `_is_domain_allowed` return `False`).  Matched-bracket IPv6
host validation is omitted: a bracketed netloc never equals a whitelist entry,
and its validation failure would equally end in a rejection. -/
def pyNetloc? (url : String) : Option String :=
  let l := dropScheme (urlPreprocess url)
  if l.take 2 = ['/', '/'] then
    let n := (l.drop 2).takeWhile fun c => !(c = '/' || c = '?' || c = '#')
    if (n.contains '[' && !n.contains ']') || (n.contains ']' && !n.contains '[')
    then none
    else some n.asString
  else some ""

/-- Python `s.lower()` (ASCII case mapping; the whitelist is ASCII). -/
def pyLower (s : String) : String :=
  (s.data.map Char.toLower).asString

/-- The `www.`-stripping step of `_is_domain_allowed`. -/
def stripWww (d : String) : String :=
  if pyStartsWith d "www." then (d.data.drop 4).asString else d

/-- Embeds `_is_domain_allowed` (tools/url_summarization.py lines 28-40):
lowercase the parsed netloc, strip a leading `www.`, and test membership in
`ALLOWED_DOMAINS`; any parsing exception yields `False`. -/
def is_domain_allowed (url : String) : Bool :=
  match pyNetloc? url with
  | none => false
  | some netloc => ALLOWED_DOMAINS.contains (stripWww (pyLower netloc))

/-- Observable outcome of one `fetch_and_summarize_url` call: whether
`requests.get` was reached, and the returned string. -/
structure UrlToolOut where
  fetched : Bool
  result : String
deriving Repr, DecidableEq

/-- `", ".join(sorted(ALLOWED_DOMAINS))` from the rejection branch. -/
def allowedListStr : String :=
  String.intercalate ", " (ALLOWED_DOMAINS.mergeSort fun a b => a ≤ b)

/-- Embeds the pre-fetch control flow of `fetch_and_summarize_url`
(tools/url_summarization.py lines 228-258): a URL failing the whitelist check
returns the rejection message before `requests.get` is reached; everything
from the request onward is abstracted as `rest`. -/
def fetch_and_summarize_url (rest : String) (url : String) : UrlToolOut :=
  if !is_domain_allowed url then
    ⟨false,
      "Error: URL domain not allowed. Only the following domains are permitted: "
        ++ allowedListStr⟩
  else ⟨true, rest⟩

end FreescoutLLM

/-- C7: a URL whose parsed host, lowercased and with a leading `www.`
stripped, is not in the whitelist makes `fetch_and_summarize_url` return the
domain-rejected message without reaching the HTTP request (URLs whose netloc
parsing raises are likewise rejected without a fetch). -/
theorem C7_whitelist_rejects_without_fetch (url rest : String)
    (h : ∀ n, pyNetloc? url = some n →
      stripWww (pyLower n) ∉ ALLOWED_DOMAINS) :
    fetch_and_summarize_url rest url =
      ⟨false,
        "Error: URL domain not allowed. Only the following domains are permitted: "
          ++ allowedListStr⟩ := by
  have hd : is_domain_allowed url = false := by
    unfold is_domain_allowed
    cases hn : pyNetloc? url with
    | none => rfl
    | some n => simpa using h n hn
  unfold fetch_and_summarize_url
  rw [hd]
  simp

/-- Witness for C7: `https://www.google.com/search` is outside the whitelist
and is rejected with no fetch. -/
theorem C7_witness :
    fetch_and_summarize_url "summary" "https://www.google.com/search" =
      ⟨false,
        "Error: URL domain not allowed. Only the following domains are permitted: "
          ++ allowedListStr⟩ :=
  C7_whitelist_rejects_without_fetch "https://www.google.com/search" "summary"
    (by decide)

namespace FreescoutLLM

/-- A single-quote character, used inside the tools' f-strings. -/
def sq : String := (Char.ofNat 39).toString

/-- Python `metadata.get(k, dflt)`: the default only applies when the key is
absent; a stored `None` is returned as-is. -/
def pyGetD (m : Metadata) (k : String) (dflt : Option String) : Option String :=
  match dictGet m k with
  | none => dflt
  | some v => v

/-- Python truthiness of a string-or-`None` value. -/
def pyTruthy (v : Option String) : Bool :=
  match v with
  | none => false
  | some s => s ≠ ""

/-- Rendering a string-or-`None` value inside an f-string. -/
def pyStr (v : Option String) : String :=
  match v with
  | some s => s
  | none => "None"

/-- Observable outcome of one search-tool call: the returned string and the
`k` actually passed to `similarity_search` (`none` = no search attempted). -/
structure SearchToolOut where
  result : String
  searchedK : Option Int
deriving Repr, DecidableEq

/-- The result formatting of `search_knowledge_base`
(tools/knowledge_search.py lines 47-61): numbered documents joined by
`\n\n---\n\n`, each with a `URL:` line when `source_url` is truthy. -/
def formatKnowledgeResults (docs : List Doc) : String :=
  String.intercalate "\n\n---\n\n" <| (docs.enumFrom 1).map fun p =>
    let source_url := pyGetD p.2.metadata "source_url" (some "")
    let content := pyStrip p.2.page_content
    let r := "Document " ++ toString p.1 ++ ":\n" ++ content
    if pyTruthy source_url then r ++ "\nURL: " ++ pyStr source_url else r

/-- Embeds `search_knowledge_base` (tools/knowledge_search.py lines 20-66).
`hasDb` is the truthiness of the captured `vector_db`; `search` stands for
`vector_db.similarity_search(query, k)`, whose exception is the `Except.error`
case (the function's `try/except` turns it into an error string).  The
dev-mode string uses the *unclamped* `k`: clamping happens after that check. -/
def search_knowledge_base (hasDb : Bool)
    (search : Int → Except String (List Doc)) (query : String) (k : Int) :
    SearchToolOut :=
  if !hasDb then
    ⟨"[DEV MODE] Vector database not available. Would search for: " ++ sq ++
      query ++ sq ++ " (k=" ++ toString k ++ ")", none⟩
  else
    let k2 := min (max 1 k) 10
    match search k2 with
    | .error e => ⟨"Error searching knowledge base: " ++ e, some k2⟩
    | .ok docs =>
      if docs.isEmpty then
        ⟨"No relevant documents found for query: " ++ sq ++ query ++ sq,
          some k2⟩
      else ⟨formatKnowledgeResults docs, some k2⟩

/-- The result formatting of `search_past_cases` (tools/email_search.py lines
47-67).  Note the Python expression `"\n\n" + "=" * 50 + "\n\n".join(results)`
concatenates one separator header and then the `"\n\n"`-joined cases. -/
def formatPastCases (docs : List Doc) : String :=
  "\n\n" ++ (List.replicate 50 '=').asString ++
    (String.intercalate "\n\n" <| (docs.enumFrom 1).map fun p =>
      let source := pyGetD p.2.metadata "source" (some "Unknown")
      let email_subject := pyGetD p.2.metadata "email_subject"
        (some "No subject")
      let email_date := pyGetD p.2.metadata "email_date" (some "Unknown date")
      let case_type := pyGetD p.2.metadata "case_type" (some "General")
      let content := pyStrip p.2.page_content
      "Past Case " ++ toString p.1 ++ " - " ++ pyStr case_type ++ "\n" ++
        "Subject: " ++ pyStr email_subject ++ "\n" ++
        "Date: " ++ pyStr email_date ++ "\n" ++
        "Source: " ++ pyStr source ++ "\n" ++
        "Email Exchange:\n" ++ content)

/-- Embeds `search_past_cases` (tools/email_search.py lines 20-74), with the
same conventions as `search_knowledge_base`; the clamp bound is 8. -/
def search_past_cases (hasDb : Bool)
    (search : Int → Except String (List Doc)) (query : String) (k : Int) :
    SearchToolOut :=
  if !hasDb then
    ⟨"[DEV MODE] Email repository not available. Would search past cases for: "
      ++ sq ++ query ++ sq ++ " (k=" ++ toString k ++ ")", none⟩
  else
    let k2 := min (max 1 k) 8
    match search k2 with
    | .error e => ⟨"Error searching past cases: " ++ e, some k2⟩
    | .ok docs =>
      if docs.isEmpty then
        ⟨"No similar past cases found for query: " ++ sq ++ query ++ sq,
          some k2⟩
      else ⟨formatPastCases docs, some k2⟩

end FreescoutLLM

/-- C8: both search tools are total string-valued functions (exceptions from
the store surface only as the `Except.error` case, which is converted to a
descriptive error string, never propagated).  Without a configured store they
return the labelled dev-mode placeholder and never search; with a store they
search with `k` clamped to `[1,10]` (knowledge) resp. `[1,8]` (past cases);
an internal error yields the prefixed error string. -/
theorem C8_search_tools_spec (query : String) (k : Int)
    (search : Int → Except String (List Doc)) :
    (search_knowledge_base false search query k).result =
      "[DEV MODE] Vector database not available. Would search for: " ++ sq ++
        query ++ sq ++ " (k=" ++ toString k ++ ")" ∧
    (search_knowledge_base false search query k).searchedK = none ∧
    (search_knowledge_base true search query k).searchedK =
      some (min (max 1 k) 10) ∧
    (1 ≤ min (max 1 k) 10 ∧ min (max 1 k) 10 ≤ 10) ∧
    (∀ e, search (min (max 1 k) 10) = .error e →
      (search_knowledge_base true search query k).result =
        "Error searching knowledge base: " ++ e) ∧
    (search_past_cases false search query k).result =
      "[DEV MODE] Email repository not available. Would search past cases for: "
        ++ sq ++ query ++ sq ++ " (k=" ++ toString k ++ ")" ∧
    (search_past_cases false search query k).searchedK = none ∧
    (search_past_cases true search query k).searchedK =
      some (min (max 1 k) 8) ∧
    (1 ≤ min (max 1 k) 8 ∧ min (max 1 k) 8 ≤ 8) ∧
    (∀ e, search (min (max 1 k) 8) = .error e →
      (search_past_cases true search query k).result =
        "Error searching past cases: " ++ e) := by
  refine ⟨rfl, rfl, ?_, ⟨le_min (le_max_left 1 k) (by norm_num),
      min_le_right _ _⟩, ?_, rfl, rfl, ?_,
    ⟨le_min (le_max_left 1 k) (by norm_num), min_le_right _ _⟩, ?_⟩
  · unfold search_knowledge_base
    cases hs : search (min (max 1 k) 10) with
    | error e => simp [hs]
    | ok docs =>
      simp only [hs, Bool.not_true, Bool.false_eq_true, if_false]
      split_ifs <;> rfl
  · intro e he
    unfold search_knowledge_base
    simp [he]
  · unfold search_past_cases
    cases hs : search (min (max 1 k) 8) with
    | error e => simp [hs]
    | ok docs =>
      simp only [hs, Bool.not_true, Bool.false_eq_true, if_false]
      split_ifs <;> rfl
  · intro e he
    unfold search_past_cases
    simp [he]

/-- Witness for C8: a failing store (`boom`) and an oversized `k = 99`. -/
theorem C8_witness :
    (search_knowledge_base false (fun _ => .error "boom") "x" 99).result =
      "[DEV MODE] Vector database not available. Would search for: " ++ sq ++
        "x" ++ sq ++ " (k=" ++ toString (99 : Int) ++ ")" ∧
    (search_knowledge_base true (fun _ => .error "boom") "x" 99).searchedK =
      some (min (max 1 99) 10) ∧
    (search_knowledge_base true (fun _ => .error "boom") "x" 99).result =
      "Error searching knowledge base: " ++ "boom" ∧
    (search_past_cases true (fun _ => .error "boom") "x" 99).searchedK =
      some (min (max 1 99) 8) ∧
    (search_past_cases true (fun _ => .error "boom") "x" 99).result =
      "Error searching past cases: " ++ "boom" := by
  obtain ⟨h1, h2, h3, h4, h5, h6, h7, h8, h9, h10⟩ :=
    C8_search_tools_spec "x" 99 fun _ => .error "boom"
  exact ⟨h1, h3, h5 "boom" rfl, h8, h10 "boom" rfl⟩
